import Mathlib

/-!
# Verification of the Zelda Claude-Code telemetry engine

A shallow embedding, in Lean 4, of the stateful tracking engine of the
repository `claude-code-but-zelda`:

* `src/src/features/combo_system.py` — the streak ("combo") state machine
  (`ComboTracker`);
* `src/src/features/achievement_system.py` — the achievement evaluator
  (`AchievementManager.update_progress`);
* `src/src/core/stats_tracker.py` — the session/all-time statistics
  aggregator (`StatsTracker`);
* `src/zelda_core.py` — the all-in-one orchestrator (`ZeldaManager`);
* `performance_optimizations.py` — the command debouncer
  (`CommandDebouncer`).

Modelling conventions:

* Python `dict`s (which preserve insertion order and are keyed by strings
  here) are modelled as association lists `List (String × β)`; assignment
  `d[k] = v` is `setAssoc` (replace in place if present, else append),
  matching Python dict semantics exactly.
* `datetime.now().isoformat()` timestamps are opaque to the engine's logic;
  they are modelled as `Nat` clock values supplied by the caller.
* `time.time() * 1000` instants in the debouncer are modelled as `Int`
  milliseconds.
* The float `total_time_coding` is modelled as `ℚ`.
* File I/O (`_save_*`, `_log_achievement`, the per-session record file) has
  no effect on the in-memory state and is omitted.
-/

/-! ## Association-list helpers (Python `dict` with string keys) -/

/-- `d.get(k)` / `k in d` lookup on an insertion-ordered dict. -/
def alookup (k : String) : List (String × β) → Option β
  | [] => none
  | (k', v) :: rest => if k' = k then some v else alookup k rest

/-- `d[k] = v`: replace the value in place if the key is present, otherwise
append the new binding at the end (Python dict insertion-order semantics). -/
def setAssoc (k : String) (v : β) : List (String × β) → List (String × β)
  | [] => [(k, v)]
  | (k', v') :: rest => if k' = k then (k, v) :: rest else (k', v') :: setAssoc k v rest

theorem alookup_setAssoc_self (k : String) (v : β) (l : List (String × β)) :
    alookup k (setAssoc k v l) = some v := by
  induction l with
  | nil => simp [alookup, setAssoc]
  | cons hd tl ih =>
    by_cases h : hd.1 = k
    · simp [alookup, setAssoc, h]
    · simp [alookup, setAssoc, h, ih]

theorem alookup_setAssoc_ne (k k' : String) (v : β) (l : List (String × β))
    (h : k' ≠ k) : alookup k (setAssoc k' v l) = alookup k l := by
  induction l with
  | nil => simp [alookup, setAssoc, h]
  | cons hd tl ih =>
    obtain ⟨a, b⟩ := hd
    by_cases h' : a = k'
    · subst h'
      simp [alookup, setAssoc, h]
    · by_cases h'' : a = k
      · subst h''
        simp [alookup, setAssoc, h']
      · simp [alookup, setAssoc, h', h'', ih]

/-! ## Combo system (`src/src/features/combo_system.py`) -/

/-- `ComboLevel` enum: threshold / reward-sound pairs. -/
inductive ComboLevel where
  | NONE | BRONZE | SILVER | GOLD | PLATINUM | MASTER
deriving DecidableEq, Repr

/-- The `threshold` member of each `ComboLevel` enum value. -/
def ComboLevel.threshold : ComboLevel → Nat
  | .NONE => 0
  | .BRONZE => 3
  | .SILVER => 5
  | .GOLD => 10
  | .PLATINUM => 20
  | .MASTER => 50

/-- The `sound` member of each `ComboLevel` enum value. -/
def ComboLevel.sound : ComboLevel → Option String
  | .NONE => none
  | .BRONZE => some "item_small.wav"
  | .SILVER => some "heart_get.wav"
  | .GOLD => some "achievement.wav"
  | .PLATINUM => some "shrine_complete.wav"
  | .MASTER => some "session_start.wav"

/-- `level.name` of the Python enum. -/
def ComboLevel.lname : ComboLevel → String
  | .NONE => "NONE"
  | .BRONZE => "BRONZE"
  | .SILVER => "SILVER"
  | .GOLD => "GOLD"
  | .PLATINUM => "PLATINUM"
  | .MASTER => "MASTER"

/-- The five real tiers in ascending threshold order. -/
def tierList : List ComboLevel := [.BRONZE, .SILVER, .GOLD, .PLATINUM, .MASTER]

/-- `ComboState` dataclass of `combo_system.py`. -/
structure ComboState where
  current_streak : Nat := 0
  highest_streak : Nat := 0
  last_level_reached : ComboLevel := .NONE
  total_combos_achieved : Nat := 0
deriving DecidableEq, Repr

/-- `ComboTracker._get_combo_level`: the loop over
`[MASTER, PLATINUM, GOLD, SILVER, BRONZE]` returning the first level whose
threshold the streak has reached, unrolled. -/
def getComboLevel (streak : Nat) : ComboLevel :=
  if 50 ≤ streak then .MASTER
  else if 20 ≤ streak then .PLATINUM
  else if 10 ≤ streak then .GOLD
  else if 5 ≤ streak then .SILVER
  else if 3 ≤ streak then .BRONZE
  else .NONE

/-- `ComboTracker._check_combo_milestone`: emit the level's sound exactly when
the computed level differs from `last_level_reached` and is not `NONE`. -/
def checkComboMilestone (st : ComboState) : ComboState × Option String :=
  let cl := getComboLevel st.current_streak
  if cl ≠ st.last_level_reached ∧ cl ≠ ComboLevel.NONE then
    ({ st with last_level_reached := cl,
               total_combos_achieved := st.total_combos_achieved + 1 }, cl.sound)
  else (st, none)

/-- `ComboTracker._handle_success`. -/
def handleSuccess (st : ComboState) : ComboState × Option String :=
  let st1 := { st with current_streak := st.current_streak + 1 }
  let st2 :=
    if st1.current_streak > st1.highest_streak then
      { st1 with highest_streak := st1.current_streak }
    else st1
  checkComboMilestone st2

/-- `ComboTracker._handle_failure`: break sound only when a streak of at
least 3 was in progress; always reset streak and level. -/
def handleFailure (st : ComboState) : ComboState × Option String :=
  let brk : Option String := if 3 ≤ st.current_streak then some "damage.wav" else none
  ({ st with current_streak := 0, last_level_reached := ComboLevel.NONE }, brk)

/-- `ComboTracker.record_action`, returning `(combo_sound, break_sound)`. -/
def recordAction (st : ComboState) (success : Bool) :
    ComboState × Option String × Option String :=
  if success then
    let (st', s) := handleSuccess st
    (st', s, none)
  else
    let (st', b) := handleFailure st
    (st', none, b)

/-- A run of `n` consecutive successful `record_action` calls starting from a
reset combo state (`current_streak = 0`, `last_level_reached = NONE`, with
arbitrary carried-over `highest_streak = h` and `total_combos_achieved = c`),
collecting each call's returned combo sound. -/
def runSuccesses (h c : Nat) : Nat → ComboState × List (Option String)
  | 0 => (⟨0, h, .NONE, c⟩, [])
  | n + 1 =>
    let (st, cues) := runSuccesses h c n
    let (st', cue) := handleSuccess st
    (st', cues ++ [cue])

/-- The five tier thresholds. -/
def thresholdsList : List Nat := [3, 5, 10, 20, 50]

theorem getComboLevel_of_ge_50 (n : Nat) (hn : 50 ≤ n) :
    getComboLevel n = ComboLevel.MASTER := by
  simp [getComboLevel, hn]

theorem tierList_filter_of_ge_50 (m : Nat) (hm : 50 ≤ m) :
    tierList.filter (fun l => decide (l.threshold ≤ m)) = tierList := by
  apply List.filter_eq_self.mpr
  intro a ha
  simp only [tierList, List.mem_cons, List.not_mem_nil, or_false] at ha
  rcases ha with rfl | rfl | rfl | rfl | rfl <;>
    (simp only [decide_eq_true_eq, ComboLevel.threshold]; omega)

/-- Incrementing the streak from `n` to `n + 1` either leaves the computed
combo level unchanged (no threshold crossed) or crosses exactly one tier
threshold, extending the set of crossed tiers by that one tier. -/
theorem comboLevel_step (n : Nat) :
    (getComboLevel (n + 1) = getComboLevel n ∧ (n + 1) ∉ thresholdsList ∧
      tierList.filter (fun l => decide (l.threshold ≤ n + 1)) =
        tierList.filter (fun l => decide (l.threshold ≤ n)))
  ∨ (getComboLevel (n + 1) ≠ getComboLevel n ∧
      getComboLevel (n + 1) ≠ ComboLevel.NONE ∧ (n + 1) ∈ thresholdsList ∧
      tierList.filter (fun l => decide (l.threshold ≤ n + 1)) =
        tierList.filter (fun l => decide (l.threshold ≤ n)) ++ [getComboLevel (n + 1)]) := by
  by_cases hb : n < 51
  · have H : ∀ m, m < 51 →
        ((getComboLevel (m + 1) = getComboLevel m ∧ (m + 1) ∉ thresholdsList ∧
          tierList.filter (fun l => decide (l.threshold ≤ m + 1)) =
            tierList.filter (fun l => decide (l.threshold ≤ m)))
      ∨ (getComboLevel (m + 1) ≠ getComboLevel m ∧
          getComboLevel (m + 1) ≠ ComboLevel.NONE ∧ (m + 1) ∈ thresholdsList ∧
          tierList.filter (fun l => decide (l.threshold ≤ m + 1)) =
            tierList.filter (fun l => decide (l.threshold ≤ m)) ++ [getComboLevel (m + 1)])) := by
      decide
    exact H n hb
  · left
    have h50 : 50 ≤ n := by omega
    refine ⟨?_, ?_, ?_⟩
    · rw [getComboLevel_of_ge_50 n h50, getComboLevel_of_ge_50 (n + 1) (by omega)]
    · simp only [thresholdsList, List.mem_cons, List.not_mem_nil, or_false]
      omega
    · rw [tierList_filter_of_ge_50 n h50, tierList_filter_of_ge_50 (n + 1) (by omega)]


/-- One successful `record_action` call from the canonical state reached by a
pure success run: the streak becomes `n + 1`, the highest streak becomes
`max h (n + 1)`, and a tier cue is emitted exactly when `n + 1` is a tier
threshold. -/
theorem handleSuccess_step (h c n : Nat) :
    handleSuccess ⟨n, max h n, getComboLevel n, c⟩ =
      (⟨n + 1, max h (n + 1), getComboLevel (n + 1),
        if (n + 1) ∈ thresholdsList then c + 1 else c⟩,
       if (n + 1) ∈ thresholdsList then (getComboLevel (n + 1)).sound else none) := by
  have hpush : ∀ b : ComboState, (if max h n < n + 1
      then ({ b with highest_streak := n + 1 } : ComboState) else b) =
      (if max h n < n + 1 then { b with highest_streak := n + 1 }
        else b) := fun _ => rfl
  by_cases hlt : max h n < n + 1
  · have hmx : max h (n + 1) = n + 1 :=
      Nat.max_eq_right (Nat.le_of_lt (Nat.lt_of_le_of_lt (Nat.le_max_left h n) hlt))
    rcases comboLevel_step n with ⟨heq, hnotin, _⟩ | ⟨hne, hnnone, hin, _⟩
    · simp only [handleSuccess, checkComboMilestone, gt_iff_lt, if_pos hlt, heq, hmx]
      simp [hnotin]
    · simp only [handleSuccess, checkComboMilestone, gt_iff_lt, if_pos hlt, hmx]
      simp [hne, hnnone, hin]
  · have hge : n + 1 ≤ max h n := Nat.le_of_not_lt hlt
    have hmx : max h (n + 1) = max h n := by
      rcases Nat.le_total n h with hnh | hhn
      · have hh : max h n = h := Nat.max_eq_left hnh
        rw [hh] at hge
        rw [hh, Nat.max_eq_left hge]
      · exfalso
        rw [Nat.max_eq_right hhn] at hge
        omega
    rcases comboLevel_step n with ⟨heq, hnotin, _⟩ | ⟨hne, hnnone, hin, _⟩
    · simp only [handleSuccess, checkComboMilestone, gt_iff_lt, if_neg hlt, heq, hmx]
      simp [hnotin]
    · simp only [handleSuccess, checkComboMilestone, gt_iff_lt, if_neg hlt, hmx]
      simp [hne, hnnone, hin]

/-- Full characterization of a success run: after `n` consecutive successes
from a reset state, the streak is `n`, the highest streak is `max h n`, the
level is `getComboLevel n`, `total_combos_achieved` has grown by one per tier
crossed, the per-call combo cue is emitted exactly at the calls whose streak
value is a tier threshold, and the emitted cues are exactly the crossed
tiers' sounds in ascending threshold order. -/
theorem runSuccesses_spec (h c n : Nat) :
    (runSuccesses h c n).1 =
      ⟨n, max h n, getComboLevel n,
        c + (tierList.filter (fun l => decide (l.threshold ≤ n))).length⟩
    ∧ (runSuccesses h c n).2 =
      (List.range n).map (fun k =>
        if (k + 1) ∈ thresholdsList then (getComboLevel (k + 1)).sound else none)
    ∧ (runSuccesses h c n).2.filterMap id =
      (tierList.filter (fun l => decide (l.threshold ≤ n))).filterMap ComboLevel.sound := by
  induction n with
  | zero =>
    refine ⟨?_, rfl, rfl⟩
    have h0 : tierList.filter (fun l => decide (l.threshold ≤ 0)) = [] := rfl
    have hg : getComboLevel 0 = ComboLevel.NONE := rfl
    rw [h0, hg]
    simp [runSuccesses]
  | succ n ih =>
    obtain ⟨ihst, ihc, ihf⟩ := ih
    have hpair : runSuccesses h c n =
        (⟨n, max h n, getComboLevel n,
            c + (tierList.filter (fun l => decide (l.threshold ≤ n))).length⟩,
         (List.range n).map (fun k =>
            if (k + 1) ∈ thresholdsList then (getComboLevel (k + 1)).sound else none)) :=
      Prod.ext_iff.mpr ⟨ihst, ihc⟩
    have ihfB : ((List.range n).map (fun k =>
        if (k + 1) ∈ thresholdsList then (getComboLevel (k + 1)).sound
        else none)).filterMap id =
        (tierList.filter (fun l => decide (l.threshold ≤ n))).filterMap
          ComboLevel.sound := by
      rw [← ihc]; exact ihf
    have hstep := handleSuccess_step h
      (c + (tierList.filter (fun l => decide (l.threshold ≤ n))).length) n
    have hlen : (tierList.filter (fun l => decide (l.threshold ≤ n + 1))).length =
        if (n + 1) ∈ thresholdsList
        then (tierList.filter (fun l => decide (l.threshold ≤ n))).length + 1
        else (tierList.filter (fun l => decide (l.threshold ≤ n))).length := by
      rcases comboLevel_step n with ⟨_, hnotin, hfilt⟩ | ⟨_, _, hin, hfilt⟩
      · rw [hfilt, if_neg hnotin]
      · rw [hfilt, if_pos hin, List.length_append, List.length_singleton]
    refine ⟨?_, ?_, ?_⟩
    · simp only [runSuccesses, hpair, hstep, hlen]
      rcases Decidable.em ((n + 1) ∈ thresholdsList) with hin | hnotin
      · simp [hin, Nat.add_assoc]
      · simp [hnotin]
    · simp only [runSuccesses, hpair, hstep, List.range_succ, List.map_append,
        List.map_cons, List.map_nil]
    · simp only [runSuccesses, hpair, hstep, List.filterMap_append, ihfB]
      rcases comboLevel_step n with ⟨_, hnotin, hfilt⟩ | ⟨_, _, hin, hfilt⟩
      · rw [hfilt, if_neg hnotin]
        simp
      · rw [hfilt, if_pos hin, List.filterMap_append]
        rcases hs : (getComboLevel (n + 1)).sound with _ | s <;>
          simp [List.filterMap_cons, hs]

/-- **C4** (confirmed). Tier-crossing cues are edge-triggered: in a run of
`n` consecutive successful calls within one unbroken streak (starting from a
reset combo state), the cue emitted by the `k`-th success is the tier sound
exactly when the streak value `k` is a tier threshold (and the computed tier
then differs from `last_tier_reached`), so each tier's cue is emitted at most
once, and the full cue sequence is exactly one cue per crossed tier, in
ascending threshold order. -/
theorem combo_tier_cues_edge_triggered (h c n : Nat) :
    (runSuccesses h c n).2 =
      (List.range n).map (fun k =>
        if (k + 1) ∈ thresholdsList then (getComboLevel (k + 1)).sound else none)
    ∧ (runSuccesses h c n).2.filterMap id =
      (tierList.filter (fun l => decide (l.threshold ≤ n))).filterMap ComboLevel.sound :=
  ⟨(runSuccesses_spec h c n).2.1, (runSuccesses_spec h c n).2.2⟩

/-! ## Command debouncer (`performance_optimizations.py`, `CommandDebouncer`) -/

/-- The `last_commands` deque: `(timestamp_ms, command)` entries, oldest
first. -/
abbrev DebounceHistory := List (Int × String)

/-- `deque(maxlen=10).append`: append on the right, evicting from the left
when the capacity of 10 is exceeded. -/
def dequeAppend (hist : DebounceHistory) (x : Int × String) : DebounceHistory :=
  let h := hist ++ [x]
  h.drop (h.length - 10)

/-- `CommandDebouncer.should_process`: scan the history for an entry with the
same command accepted less than `threshold_ms` ago; if found return `false`
without recording, otherwise record `(now, command)` and return `true`.
Returns the updated history together with the boolean result. -/
def shouldProcess (threshold_ms : Int) (hist : DebounceHistory) (now : Int)
    (command : String) : DebounceHistory × Bool :=
  if hist.any (fun p => p.2 == command && decide (now - p.1 < threshold_ms)) then
    (hist, false)
  else
    (dequeAppend hist (now, command), true)

/-- A sequence of `should_process` calls from a given history, collecting
each call's boolean result. -/
def runDebouncer (threshold_ms : Int) (hist : DebounceHistory) :
    List (Int × String) → DebounceHistory × List Bool
  | [] => (hist, [])
  | (t, c) :: rest =>
    let (h', b) := shouldProcess threshold_ms hist t c
    let (h'', bs) := runDebouncer threshold_ms h' rest
    (h'', b :: bs)

/-- **C5** (amended form). A `should_process` call with threshold 100ms
returns `false` iff the *retained* history (the bounded deque of the last
accepted entries) holds a same-signature entry accepted less than 100ms ago;
an accepted call appends its signature and timestamp to the deque; and the
two concrete two-call scenarios of the claim hold: same signature 50ms apart
gives `(true, false)`, 150ms apart gives `(true, true)`. -/
theorem debouncer_suppression_window (hist : DebounceHistory) (now : Int)
    (command : String) :
    ((shouldProcess 100 hist now command).2 = false ↔
      ∃ p ∈ hist, p.2 = command ∧ now - p.1 < 100)
    ∧ ((shouldProcess 100 hist now command).2 = true →
        (shouldProcess 100 hist now command).1 = dequeAppend hist (now, command))
    ∧ (runDebouncer 100 [] [(0, "x"), (50, "x")]).2 = [true, false]
    ∧ (runDebouncer 100 [] [(0, "x"), (150, "x")]).2 = [true, true] := by
  refine ⟨?_, ?_, by decide, by decide⟩
  · constructor
    · intro hfalse
      by_cases hany :
          hist.any (fun p => p.2 == command && decide (now - p.1 < 100)) = true
      · rcases List.any_eq_true.mp hany with ⟨p, hp, hcond⟩
        simp only [Bool.and_eq_true, beq_iff_eq, decide_eq_true_eq] at hcond
        exact ⟨p, hp, hcond.1, hcond.2⟩
      · simp [shouldProcess, hany] at hfalse
    · rintro ⟨p, hp, heq, hlt⟩
      have hany : hist.any (fun p => p.2 == command && decide (now - p.1 < 100)) = true :=
        List.any_eq_true.mpr ⟨p, hp, by simp [heq, hlt]⟩
      simp [shouldProcess, hany]
  · intro htrue
    by_cases hany :
        hist.any (fun p => p.2 == command && decide (now - p.1 < 100)) = true
    · simp [shouldProcess, hany] at htrue
    · simp [shouldProcess, hany]

/-- **C5** witness: the general theorem applied at a concrete history and
call, discharging the acceptance hypothesis of the recording clause. -/
theorem debouncer_suppression_window_witness :
    ((shouldProcess 100 [((0 : Int), "a")] 50 "a").2 = false ↔
      ∃ p ∈ [((0 : Int), "a")], p.2 = "a" ∧ (50 : Int) - p.1 < 100)
    ∧ (shouldProcess 100 [((0 : Int), "a")] 200 "a").1 =
        dequeAppend [((0 : Int), "a")] (200, "a") :=
  ⟨(debouncer_suppression_window [((0 : Int), "a")] 50 "a").1,
   (debouncer_suppression_window [((0 : Int), "a")] 200 "a").2.1 (by decide)⟩

/-- **C5** counterexample to the claim as stated. The deque is bounded to 10
entries, so the clause "a call returns `false` if and only if a call with the
same signature was accepted within the last `threshold_ms`" fails: signature
`"a"` is accepted at time 0 (first result `true`), ten other distinct
signatures are accepted at time 0 and evict it, and the final call with
signature `"a"` at time 50 — within 100ms of an accepted same-signature
call — nevertheless returns `true`. -/
theorem debouncer_eviction_counterexample :
    (runDebouncer 100 []
      [(0, "a"), (0, "b1"), (0, "b2"), (0, "b3"), (0, "b4"), (0, "b5"),
       (0, "b6"), (0, "b7"), (0, "b8"), (0, "b9"), (0, "b10"), (50, "a")]).2 =
      [true, true, true, true, true, true, true, true, true, true, true, true]
    ∧ ((50 : Int) - 0 < 100) := by
  constructor
  · decide
  · decide

/-- **C9** (confirmed). A rejected call is not recorded: three calls with the
same signature at times `t`, `t+50`, `t+100` (threshold 100ms) return
`(true, false, true)`, and the rejected second call leaves the history
unchanged — the suppression window is measured from the most recent
*accepted* call. -/
theorem debouncer_rejected_not_recorded :
    (runDebouncer 100 [] [(0, "x"), (50, "x"), (100, "x")]).2 = [true, false, true]
    ∧ (shouldProcess 100 (shouldProcess 100 [] 0 "x").1 50 "x").1 =
        (shouldProcess 100 [] 0 "x").1 := by
  constructor
  · decide
  · decide

/-! ## Stats tracker (`src/src/core/stats_tracker.py`) -/

/-- `SessionStats` dataclass. `start_time`/`end_time` ISO strings are
modelled as `Nat` clock values. -/
structure SessionStats where
  session_id : String
  start_time : Nat
  end_time : Option Nat := none
  total_commands : Nat := 0
  successful_commands : Nat := 0
  failed_commands : Nat := 0
  current_streak : Nat := 0
  max_streak : Nat := 0
  tools_used : List (String × Nat) := []
  achievements_unlocked : List String := []
deriving DecidableEq, Repr

/-- `AllTimeStats` dataclass (shared, field for field, between
`stats_tracker.py` and `zelda_core.py`); the float `total_time_coding` is
modelled as `ℚ`, date strings as `Nat` clock values. -/
structure AllTimeStats where
  total_sessions : Nat := 0
  total_commands : Nat := 0
  total_successes : Nat := 0
  total_failures : Nat := 0
  longest_streak : Nat := 0
  longest_streak_date : Option Nat := none
  total_time_coding : ℚ := 0
  favorite_tool : Option String := none
  tool_usage : List (String × Nat) := []
  achievements : List (String × Nat) := []
  milestones : List (String × Nat) := []
deriving DecidableEq, Repr

/-- The in-memory state of a `StatsTracker`. -/
structure StatsTracker where
  current_session : Option SessionStats := none
  all_time_stats : AllTimeStats := {}
deriving DecidableEq, Repr

/-- `StatsTracker.start_session`. -/
def startSession (t : StatsTracker) (id : String) (now : Nat) : StatsTracker :=
  { t with
      current_session := some { session_id := id, start_time := now },
      all_time_stats :=
        { t.all_time_stats with
            total_sessions := t.all_time_stats.total_sessions + 1 } }

/-- The milestone table of `StatsTracker._check_milestones`, in dict
insertion order. -/
def milestonePairs : List (Nat × String) :=
  [(1, "first_command"), (10, "novice_coder"), (50, "apprentice_coder"),
   (100, "journeyman_coder"), (500, "expert_coder"), (1000, "master_coder"),
   (5000, "legendary_coder")]

/-- The loop body of `StatsTracker._check_milestones`: the first milestone
whose count is reached and is not yet recorded is stamped, appended to the
session's `achievements_unlocked`, and the loop returns early. -/
def msGo (now total : Nat) :
    List (Nat × String) → AllTimeStats → Option SessionStats →
    AllTimeStats × Option SessionStats
  | [], ats, sess => (ats, sess)
  | (count, mid) :: rest, ats, sess =>
    if count ≤ total ∧ alookup mid ats.milestones = none then
      ({ ats with milestones := setAssoc mid now ats.milestones },
       match sess with
       | some s =>
         some { s with achievements_unlocked := s.achievements_unlocked ++ [mid] }
       | none => none)
    else msGo now total rest ats sess

/-- `StatsTracker._check_milestones`. -/
def checkMilestones (t : StatsTracker) (now : Nat) : StatsTracker :=
  let total := t.all_time_stats.total_commands +
    (match t.current_session with | some s => s.total_commands | none => 0)
  let r := msGo now total milestonePairs t.all_time_stats t.current_session
  { t with all_time_stats := r.1, current_session := r.2 }

/-- The per-event session-record update of `StatsTracker.record_command`:
increment `total_commands`, then on success increment
`successful_commands`/`current_streak` (raising `max_streak` when exceeded),
on failure increment `failed_commands` and reset `current_streak` to 0, and
finally bump the tool-usage histogram. -/
def stepSession (s : SessionStats) (tool : String) (success : Bool) :
    SessionStats :=
  let s1 : SessionStats := { s with total_commands := s.total_commands + 1 }
  let s2 : SessionStats :=
    if success then
      let s' : SessionStats := { s1 with
        successful_commands := s1.successful_commands + 1,
        current_streak := s1.current_streak + 1 }
      if s'.current_streak > s'.max_streak then
        { s' with max_streak := s'.current_streak }
      else s'
    else
      { s1 with failed_commands := s1.failed_commands + 1, current_streak := 0 }
  { s2 with
    tools_used := setAssoc tool ((alookup tool s2.tools_used).getD 0 + 1) s2.tools_used }

/-- `StatsTracker.record_command`: silently returns when no session is open;
otherwise updates the session counters, streaks and tool usage, then checks
milestones. -/
def recordCommandT (t : StatsTracker) (now : Nat) (tool : String)
    (success : Bool) : StatsTracker :=
  match t.current_session with
  | none => t
  | some s =>
    checkMilestones { t with current_session := some (stepSession s tool success) } now

/-- Python's `max(items, key=lambda x: x[1])[0]` over a nonempty dict: the
first key attaining the maximal count (later ties do not replace). -/
def argmaxFirst : List (String × Nat) → Option String
  | [] => none
  | x :: rest => some (rest.foldl (fun best y => if y.2 > best.2 then y else best) x).1

/-- The session-into-all-time tool-usage merge of `StatsTracker.end_session`. -/
def mergeUsage (base add : List (String × Nat)) : List (String × Nat) :=
  add.foldl (fun acc tc => setAssoc tc.1 ((alookup tc.1 acc).getD 0 + tc.2) acc) base

/-- `StatsTracker.end_session`: a no-op when no session is open; otherwise
stamps `end_time`, folds the session counters into the all-time record,
updates the longest streak (and its date only when it strictly increases),
merges tool usage, recomputes the favorite tool, adds the session duration,
and clears the active session. -/
def endSession (t : StatsTracker) (now : Nat) : StatsTracker :=
  match t.current_session with
  | none => t
  | some s0 =>
    let s : SessionStats := { s0 with end_time := some now }
    let a1 : AllTimeStats := { t.all_time_stats with
      total_commands := t.all_time_stats.total_commands + s.total_commands,
      total_successes := t.all_time_stats.total_successes + s.successful_commands,
      total_failures := t.all_time_stats.total_failures + s.failed_commands }
    let a2 : AllTimeStats :=
      if s.max_streak > a1.longest_streak then
        { a1 with longest_streak := s.max_streak, longest_streak_date := some now }
      else a1
    let a3 : AllTimeStats := { a2 with tool_usage := mergeUsage a2.tool_usage s.tools_used }
    let a4 : AllTimeStats :=
      match argmaxFirst a3.tool_usage with
      | some f => { a3 with favorite_tool := some f }
      | none => a3
    let dur : Int := (now : Int) - (s.start_time : Int)
    let a5 : AllTimeStats :=
      if dur ≠ 0 then
        { a4 with total_time_coding := a4.total_time_coding + (dur : ℚ) / 60 }
      else a4
    { t with all_time_stats := a5, current_session := none }

/-- A sequence of `record_command` calls, each event being
`(now, tool_name, success)`. -/
def runT (t : StatsTracker) : List (Nat × String × Bool) → StatsTracker
  | [] => t
  | (now, tool, success) :: rest => runT (recordCommandT t now tool success) rest

/-- `total_commands` of the open session (0 when none is open). -/
def sessTotal (t : StatsTracker) : Nat :=
  match t.current_session with | some s => s.total_commands | none => 0

/-- `successful_commands` of the open session (0 when none is open). -/
def sessSucc (t : StatsTracker) : Nat :=
  match t.current_session with | some s => s.successful_commands | none => 0

/-- `failed_commands` of the open session (0 when none is open). -/
def sessFailed (t : StatsTracker) : Nat :=
  match t.current_session with | some s => s.failed_commands | none => 0

/-- `current_streak` of the open session (0 when none is open). -/
def sessCur (t : StatsTracker) : Nat :=
  match t.current_session with | some s => s.current_streak | none => 0

/-- `max_streak` of the open session (0 when none is open). -/
def sessMax (t : StatsTracker) : Nat :=
  match t.current_session with | some s => s.max_streak | none => 0

theorem msGo_session (now total : Nat) (pairs : List (Nat × String))
    (ats : AllTimeStats) (sess : Option SessionStats) :
    (msGo now total pairs ats sess).2 = sess ∨
    ∃ s mid, sess = some s ∧
      (msGo now total pairs ats sess).2 =
        some { s with achievements_unlocked := s.achievements_unlocked ++ [mid] } := by
  induction pairs with
  | nil => left; rfl
  | cons p rest ih =>
    obtain ⟨count, mid⟩ := p
    by_cases hc : count ≤ total ∧ alookup mid ats.milestones = none
    · simp only [msGo, if_pos hc]
      cases sess with
      | none => left; rfl
      | some s => right; exact ⟨s, mid, rfl, rfl⟩
    · simp only [msGo, if_neg hc]
      exact ih

theorem checkMilestones_counters (t : StatsTracker) (now : Nat) :
    sessTotal (checkMilestones t now) = sessTotal t ∧
    sessSucc (checkMilestones t now) = sessSucc t ∧
    sessFailed (checkMilestones t now) = sessFailed t ∧
    sessCur (checkMilestones t now) = sessCur t ∧
    sessMax (checkMilestones t now) = sessMax t ∧
    (checkMilestones t now).current_session.isSome = t.current_session.isSome := by
  rcases msGo_session now
      (t.all_time_stats.total_commands +
        (match t.current_session with | some s => s.total_commands | none => 0))
      milestonePairs t.all_time_stats t.current_session with h | ⟨s, mid, hs, h⟩
  · simp [checkMilestones, sessTotal, sessSucc, sessFailed, sessCur, sessMax, h]
  · rw [hs] at h
    simp only [] at h
    simp [checkMilestones, sessTotal, sessSucc, sessFailed, sessCur, sessMax, hs, h]

theorem stepSession_total (s : SessionStats) (tool : String) (b : Bool) :
    (stepSession s tool b).total_commands = s.total_commands + 1 := by
  cases b with
  | false => rfl
  | true =>
    by_cases hmx : s.current_streak + 1 > s.max_streak
    · simp [stepSession, hmx]
    · simp [stepSession, hmx]

theorem stepSession_succ_failed (s : SessionStats) (tool : String) (b : Bool) :
    (stepSession s tool b).successful_commands +
      (stepSession s tool b).failed_commands =
    s.successful_commands + s.failed_commands + 1 := by
  cases b with
  | false =>
    show s.successful_commands + (s.failed_commands + 1) =
      s.successful_commands + s.failed_commands + 1
    omega
  | true =>
    by_cases hmx : s.current_streak + 1 > s.max_streak <;>
      (simp [stepSession, hmx] <;> omega)

theorem stepSession_streak (s : SessionStats) (tool : String) (b : Bool) :
    (stepSession s tool b).current_streak ≤ (stepSession s tool b).max_streak := by
  cases b with
  | false => exact Nat.zero_le _
  | true =>
    by_cases hmx : s.current_streak + 1 > s.max_streak <;>
      (simp [stepSession, hmx] <;> omega)

theorem stepSession_failure_resets (s : SessionStats) (tool : String) :
    (stepSession s tool false).current_streak = 0 := rfl

/-- The session-record invariant maintained by the stats tracker. -/
def TrackerInv (t : StatsTracker) : Prop :=
  sessTotal t = sessSucc t + sessFailed t ∧ sessCur t ≤ sessMax t

theorem recordCommandT_inv (t : StatsTracker) (now : Nat) (tool : String)
    (b : Bool) (h : TrackerInv t) :
    TrackerInv (recordCommandT t now tool b) ∧
    (recordCommandT t now tool b).current_session.isSome =
      t.current_session.isSome := by
  obtain ⟨h1, h2⟩ := h
  cases hs : t.current_session with
  | none =>
    simp only [recordCommandT, hs]
    exact ⟨⟨h1, h2⟩, trivial⟩
  | some s =>
    have h1' : s.total_commands = s.successful_commands + s.failed_commands := by
      simpa [sessTotal, sessSucc, sessFailed, hs] using h1
    simp only [recordCommandT, hs]
    obtain ⟨e1, e2, e3, e4, e5, e6⟩ := checkMilestones_counters
      { t with current_session := some (stepSession s tool b) } now
    refine ⟨⟨?_, ?_⟩, ?_⟩
    · rw [e1, e2, e3]
      show (stepSession s tool b).total_commands =
        (stepSession s tool b).successful_commands +
          (stepSession s tool b).failed_commands
      rw [stepSession_total, stepSession_succ_failed]
      omega
    · rw [e4, e5]
      exact stepSession_streak s tool b
    · rw [e6]
      rfl

theorem runT_inv (evs : List (Nat × String × Bool)) (t : StatsTracker)
    (h : TrackerInv t) :
    TrackerInv (runT t evs) ∧
    (runT t evs).current_session.isSome = t.current_session.isSome := by
  induction evs generalizing t with
  | nil => exact ⟨h, rfl⟩
  | cons e rest ih =>
    obtain ⟨now, tool, b⟩ := e
    obtain ⟨hstep, hsome⟩ := recordCommandT_inv t now tool b h
    obtain ⟨hrest, hsome'⟩ := ih (recordCommandT t now tool b) hstep
    refine ⟨?_, ?_⟩
    · simpa only [runT] using hrest
    · simp only [runT]
      rw [hsome']
      exact hsome

theorem startSession_inv (t : StatsTracker) (id : String) (now : Nat) :
    TrackerInv (startSession t id now) ∧
    (startSession t id now).current_session.isSome = true := by
  refine ⟨⟨?_, ?_⟩, ?_⟩
  · rfl
  · exact Nat.le_refl 0
  · rfl

theorem runT_append (t : StatsTracker) (l1 l2 : List (Nat × String × Bool)) :
    runT t (l1 ++ l2) = runT (runT t l1) l2 := by
  induction l1 generalizing t with
  | nil => rfl
  | cons e rest ih =>
    obtain ⟨now, tool, b⟩ := e
    show runT (recordCommandT t now tool b) (rest ++ l2) =
      runT (runT (recordCommandT t now tool b) rest) l2
    exact ih (recordCommandT t now tool b)

theorem recordCommandT_failure_resets (t : StatsTracker) (now : Nat)
    (tool : String) (h : t.current_session.isSome = true) :
    sessCur (recordCommandT t now tool false) = 0 := by
  cases hs : t.current_session with
  | none => rw [hs] at h; simp at h
  | some s =>
    simp only [recordCommandT, hs]
    rw [(checkMilestones_counters
      { t with current_session := some (stepSession s tool false) } now).2.2.2.1]
    show (stepSession s tool false).current_streak = 0
    exact stepSession_failure_resets s tool

/-- **C6** (confirmed). Within one open session, after any sequence of
`record_command` calls, `total_commands = successful_commands +
failed_commands` holds in the session record (and the session stays open). -/
theorem session_totals_invariant (t : StatsTracker) (id : String) (t0 : Nat)
    (evs : List (Nat × String × Bool)) :
    sessTotal (runT (startSession t id t0) evs) =
      sessSucc (runT (startSession t id t0) evs) +
        sessFailed (runT (startSession t id t0) evs)
    ∧ (runT (startSession t id t0) evs).current_session.isSome = true := by
  obtain ⟨hinv, hsome⟩ :=
    runT_inv evs (startSession t id t0) (startSession_inv t id t0).1
  exact ⟨hinv.1, by rw [hsome] ; exact (startSession_inv t id t0).2⟩

/-- **C7** (confirmed). Within one open session, `current_streak ≤
max_streak` holds after any sequence of recorded events, and immediately
after any failure event `current_streak` is exactly 0. -/
theorem streak_invariant_and_failure_reset (t : StatsTracker) (id : String)
    (t0 n0 : Nat) (tool : String) (evs : List (Nat × String × Bool)) :
    sessCur (runT (startSession t id t0) evs) ≤
      sessMax (runT (startSession t id t0) evs)
    ∧ sessCur (runT (startSession t id t0) (evs ++ [(n0, tool, false)])) = 0 := by
  obtain ⟨hinv, hsome⟩ :=
    runT_inv evs (startSession t id t0) (startSession_inv t id t0).1
  refine ⟨hinv.2, ?_⟩
  rw [runT_append]
  show sessCur (recordCommandT (runT (startSession t id t0) evs) n0 tool false) = 0
  apply recordCommandT_failure_resets
  rw [hsome]
  exact (startSession_inv t id t0).2

/-- **C8** (confirmed). `end_session` is idempotent: a second consecutive
call is a no-op — it raises nothing and leaves the whole tracker state,
including the all-time record (totals, longest streak, tool usage, total
time, session count), unchanged; the session's counters are folded into the
all-time record exactly once. -/
theorem end_session_idempotent (t : StatsTracker) (n1 n2 : Nat) :
    endSession (endSession t n1) n2 = endSession t n1 := by
  cases hs : t.current_session with
  | none => simp only [endSession, hs]
  | some s => simp only [endSession, hs]

/-! ## Achievement system (`src/src/features/achievement_system.py`) -/

/-- `AchievementProgress` dataclass (the `achievement_id` field is the
association-list key). -/
structure AchProgress where
  current_progress : Nat
  requirement : Nat
  unlocked : Bool := false
  unlock_date : Option Nat := none
deriving DecidableEq, Repr

/-- The collector-category achievement ids, in the order of the
`collector_updates` dict. -/
def collectorIds : List String :=
  ["sound_hunter", "achievement_hunter", "completionist"]

/-- The primary loop of `AchievementManager.update_progress`: raise each
updated achievement's progress to `max(old, new)` and unlock it (appending
its id to the result list) when the requirement is reached on a
not-yet-unlocked entry; ids absent from the progress map are skipped. -/
def updLoop (now : Nat) :
    List (String × Nat) → List (String × AchProgress) → List String →
    List (String × AchProgress) × List String
  | [], p, acc => (p, acc)
  | (aid, v) :: rest, p, acc =>
    match alookup aid p with
    | none => updLoop now rest p acc
    | some e =>
      let cur := max e.current_progress v
      if e.unlocked = false ∧ e.requirement ≤ cur then
        updLoop now rest
          (setAssoc aid ⟨cur, e.requirement, true, some now⟩ p) (acc ++ [aid])
      else
        updLoop now rest
          (setAssoc aid ⟨cur, e.requirement, e.unlocked, e.unlock_date⟩ p) acc

/-- The collector pass of `update_progress`: for each collector achievement
present and not yet unlocked, overwrite its progress with the current count
of unlocked achievements and unlock it when the requirement is reached. -/
def collGo (now total : Nat) :
    List String → List (String × AchProgress) → List String →
    List (String × AchProgress) × List String
  | [], p, acc => (p, acc)
  | aid :: rest, p, acc =>
    match alookup aid p with
    | none => collGo now total rest p acc
    | some e =>
      if e.unlocked = false then
        if e.requirement ≤ total then
          collGo now total rest
            (setAssoc aid ⟨total, e.requirement, true, some now⟩ p) (acc ++ [aid])
        else
          collGo now total rest
            (setAssoc aid ⟨total, e.requirement, false, e.unlock_date⟩ p) acc
      else collGo now total rest p acc

/-- `AchievementManager.update_progress` (the result list holds the newly
unlocked achievement ids; the Python code pairs each with its catalog
sound). -/
def updateProgress (now : Nat) (p : List (String × AchProgress))
    (updates : List (String × Nat)) :
    List (String × AchProgress) × List String :=
  let r := updLoop now updates p []
  let total := (r.1.filter (fun x => x.2.unlocked)).length
  collGo now total collectorIds r.1 r.2

theorem updLoop_acc_mono (now : Nat) (updates : List (String × Nat))
    (p : List (String × AchProgress)) (acc : List String) (x : String)
    (hx : x ∈ acc) : x ∈ (updLoop now updates p acc).2 := by
  induction updates generalizing p acc with
  | nil => exact hx
  | cons u rest ih =>
    obtain ⟨aid, v⟩ := u
    cases halk : alookup aid p with
    | none =>
      simp only [updLoop, halk]
      exact ih _ _ hx
    | some e =>
      simp only [updLoop, halk]
      by_cases hc : e.unlocked = false ∧ e.requirement ≤ max e.current_progress v
      · rw [if_pos hc]
        exact ih _ _ (by simp [hx])
      · rw [if_neg hc]
        exact ih _ _ hx

theorem collGo_acc_mono (now total : Nat) (ids : List String)
    (p : List (String × AchProgress)) (acc : List String) (x : String)
    (hx : x ∈ acc) : x ∈ (collGo now total ids p acc).2 := by
  induction ids generalizing p acc with
  | nil => exact hx
  | cons aid rest ih =>
    cases halk : alookup aid p with
    | none =>
      simp only [collGo, halk]
      exact ih _ _ hx
    | some e =>
      simp only [collGo, halk]
      by_cases hu : e.unlocked = false
      · rw [if_pos hu]
        by_cases hr : e.requirement ≤ total
        · rw [if_pos hr]
          exact ih _ _ (by simp [hx])
        · rw [if_neg hr]
          exact ih _ _ hx
      · rw [if_neg hu]
        exact ih _ _ hx

theorem updLoop_lookup_other (now : Nat) (updates : List (String × Nat))
    (aid : String) (hnot : aid ∉ updates.map Prod.fst) :
    ∀ p acc, alookup aid (updLoop now updates p acc).1 = alookup aid p := by
  induction updates with
  | nil => intro p acc; rfl
  | cons u rest ih =>
    intro p acc
    obtain ⟨b, w⟩ := u
    simp only [List.map_cons, List.mem_cons, not_or] at hnot
    obtain ⟨hne, hnot'⟩ := hnot
    have hbne : b ≠ aid := fun hh => hne hh.symm
    cases halk : alookup b p with
    | none =>
      simp only [updLoop, halk]
      exact ih hnot' _ _
    | some e =>
      simp only [updLoop, halk]
      by_cases hc : e.unlocked = false ∧ e.requirement ≤ max e.current_progress w
      · rw [if_pos hc, ih hnot', alookup_setAssoc_ne _ _ _ _ hbne]
      · rw [if_neg hc, ih hnot', alookup_setAssoc_ne _ _ _ _ hbne]

theorem collGo_lookup_other (now total : Nat) (ids : List String)
    (aid : String) (hnot : aid ∉ ids) :
    ∀ p acc, alookup aid (collGo now total ids p acc).1 = alookup aid p := by
  induction ids with
  | nil => intro p acc; rfl
  | cons b rest ih =>
    intro p acc
    simp only [List.mem_cons, not_or] at hnot
    obtain ⟨hne, hnot'⟩ := hnot
    have hbne : b ≠ aid := fun hh => hne hh.symm
    cases halk : alookup b p with
    | none =>
      simp only [collGo, halk]
      exact ih hnot' _ _
    | some e =>
      simp only [collGo, halk]
      by_cases hu : e.unlocked = false
      · rw [if_pos hu]
        by_cases hr : e.requirement ≤ total
        · rw [if_pos hr, ih hnot', alookup_setAssoc_ne _ _ _ _ hbne]
        · rw [if_neg hr, ih hnot', alookup_setAssoc_ne _ _ _ _ hbne]
      · rw [if_neg hu]
        exact ih hnot' _ _

theorem updLoop_complete (now : Nat) (updates : List (String × Nat))
    (aid : String) (v : Nat) (e : AchProgress) :
    ∀ p acc, (updates.map Prod.fst).Nodup → (aid, v) ∈ updates →
    alookup aid p = some e → e.unlocked = false →
    e.requirement ≤ max e.current_progress v →
    aid ∈ (updLoop now updates p acc).2 := by
  induction updates with
  | nil =>
    intro p acc _ hm
    simp at hm
  | cons u rest ih =>
    intro p acc hnd hm hlk hU hR
    obtain ⟨b, w⟩ := u
    rw [List.map_cons] at hnd
    rcases List.mem_cons.mp hm with heq | hmem
    · cases heq
      simp only [updLoop, hlk]
      rw [if_pos ⟨hU, hR⟩]
      exact updLoop_acc_mono now rest _ _ aid (by simp)
    · have hnd' := (List.nodup_cons.mp hnd).2
      have hbnotin := (List.nodup_cons.mp hnd).1
      have hbne : b ≠ aid := by
        intro hbeq
        subst hbeq
        exact hbnotin (List.mem_map.mpr ⟨(b, v), hmem, rfl⟩)
      cases halk : alookup b p with
      | none =>
        simp only [updLoop, halk]
        exact ih _ _ hnd' hmem hlk hU hR
      | some eb =>
        simp only [updLoop, halk]
        by_cases hc : eb.unlocked = false ∧ eb.requirement ≤ max eb.current_progress w
        · rw [if_pos hc]
          refine ih _ _ hnd' hmem ?_ hU hR
          rw [alookup_setAssoc_ne _ _ _ _ hbne]
          exact hlk
        · rw [if_neg hc]
          refine ih _ _ hnd' hmem ?_ hU hR
          rw [alookup_setAssoc_ne _ _ _ _ hbne]
          exact hlk

theorem updLoop_sets_max (now : Nat) (updates : List (String × Nat))
    (aid : String) (v : Nat) (e : AchProgress) :
    ∀ p acc, (updates.map Prod.fst).Nodup → (aid, v) ∈ updates →
    alookup aid p = some e →
    (alookup aid (updLoop now updates p acc).1).map AchProgress.current_progress =
      some (max e.current_progress v) := by
  induction updates with
  | nil =>
    intro p acc _ hm
    simp at hm
  | cons u rest ih =>
    intro p acc hnd hm hlk
    obtain ⟨b, w⟩ := u
    rw [List.map_cons] at hnd
    rcases List.mem_cons.mp hm with heq | hmem
    · cases heq
      have hnotin := (List.nodup_cons.mp hnd).1
      simp only [updLoop, hlk]
      by_cases hc : e.unlocked = false ∧ e.requirement ≤ max e.current_progress v
      · rw [if_pos hc, updLoop_lookup_other now rest aid hnotin,
          alookup_setAssoc_self]
        rfl
      · rw [if_neg hc, updLoop_lookup_other now rest aid hnotin,
          alookup_setAssoc_self]
        rfl
    · have hnd' := (List.nodup_cons.mp hnd).2
      have hbnotin := (List.nodup_cons.mp hnd).1
      have hbne : b ≠ aid := by
        intro hbeq
        subst hbeq
        exact hbnotin (List.mem_map.mpr ⟨(b, v), hmem, rfl⟩)
      cases halk : alookup b p with
      | none =>
        simp only [updLoop, halk]
        exact ih _ _ hnd' hmem hlk
      | some eb =>
        simp only [updLoop, halk]
        by_cases hc : eb.unlocked = false ∧ eb.requirement ≤ max eb.current_progress w
        · rw [if_pos hc]
          refine ih _ _ hnd' hmem ?_
          rw [alookup_setAssoc_ne _ _ _ _ hbne]
          exact hlk
        · rw [if_neg hc]
          refine ih _ _ hnd' hmem ?_
          rw [alookup_setAssoc_ne _ _ _ _ hbne]
          exact hlk

/-- **C2** (amended form). In `AchievementManager.update_progress`, for every
non-collector achievement id in the (duplicate-free) update dict, the stored
progress is set to `max(old value, new counter)` — in particular it never
decreases, whatever the new counter is. -/
theorem update_progress_sets_max (now : Nat) (p : List (String × AchProgress))
    (updates : List (String × Nat)) (aid : String) (v : Nat) (e : AchProgress)
    (hnd : (updates.map Prod.fst).Nodup) (hmem : (aid, v) ∈ updates)
    (hcoll : aid ∉ collectorIds) (hlk : alookup aid p = some e) :
    (alookup aid (updateProgress now p updates).1).map AchProgress.current_progress
      = some (max e.current_progress v) := by
  unfold updateProgress
  rw [collGo_lookup_other _ _ _ aid hcoll]
  exact updLoop_sets_max now updates aid v e p [] hnd hmem hlk

/-- **C2** witness: the amended theorem applied at the concrete progress map
`[("first_step", ⟨0, 1, false⟩)]` and update `[("first_step", 5)]`, with all
hypotheses discharged by computation. -/
theorem update_progress_sets_max_witness :
    (alookup "first_step"
        (updateProgress 7 [("first_step", ⟨0, 1, false, none⟩)]
          [("first_step", 5)]).1).map AchProgress.current_progress =
      some (max 0 5) :=
  update_progress_sets_max 7 [("first_step", ⟨0, 1, false, none⟩)]
    [("first_step", 5)] "first_step" 5 ⟨0, 1, false, none⟩
    (by decide) (by decide) (by decide) (by decide)

/-! ## ZeldaManager (`src/zelda_core.py`) -/

/-- The config keys read by `record_command` (`config["sounds"]["combo"]`
and `config["sounds"]["achievements"]`); both default to `true`. -/
structure ZeldaConfig where
  sounds_combo : Bool := true
  sounds_achievements : Bool := true
deriving DecidableEq, Repr

/-- `zelda_core.ComboState`: `last_level_reached` is stored as the enum
member's name string. -/
structure ZComboState where
  current_streak : Nat := 0
  highest_streak : Nat := 0
  last_level_reached : String := "NONE"
  total_combos_achieved : Nat := 0
deriving DecidableEq, Repr

/-- The in-memory state of a `ZeldaManager`. -/
structure ZeldaManager where
  config : ZeldaConfig := {}
  all_time : AllTimeStats := {}
  current_session : Option SessionStats := none
  combo_state : ZComboState := {}
  ach_unlocked : List (String × Nat) := []
  ach_progress : List (String × Nat) := []
  error_free_count : Nat := 0
deriving DecidableEq, Repr

/-- The `ACHIEVEMENTS` dict of `zelda_core.py`: `(id, requirement)` in
insertion order. -/
def zACHIEVEMENTS : List (String × Nat) :=
  [("first_step", 1), ("apprentice", 10), ("journeyman", 50),
   ("master", 100), ("legend", 500),
   ("combo_bronze", 3), ("combo_silver", 5), ("combo_gold", 10),
   ("combo_platinum", 20),
   ("flawless_ten", 10), ("error_free", 25)]

/-- The per-achievement counter selection of
`ZeldaManager._check_achievements`. -/
def zCounterFor (aid : String) (totalCommands streak ef : Nat) : Nat :=
  if aid ∈ ["first_step", "apprentice", "journeyman", "master", "legend"] then
    totalCommands
  else if aid ∈ ["combo_bronze", "combo_silver", "combo_gold", "combo_platinum"] then
    streak
  else if aid ∈ ["flawless_ten", "error_free"] then ef
  else 0

/-- The milestone loop of `ZeldaManager._update_combo` on success: for each
level (highest threshold first), when `current_streak` equals the level's
threshold, record the level and count the crossing; the level's sound is
returned only when the `sounds.combo` flag is on (otherwise the loop keeps
going, matching the Python `return` being skipped). -/
def zComboLoop (comboFlag : Bool) :
    List ComboLevel → ZComboState → ZComboState × Option String
  | [], st => (st, none)
  | l :: rest, st =>
    if st.current_streak = l.threshold then
      let st' : ZComboState := { st with
        last_level_reached := l.lname,
        total_combos_achieved := st.total_combos_achieved + 1 }
      if comboFlag then (st', l.sound) else zComboLoop comboFlag rest st'
    else zComboLoop comboFlag rest st

/-- `ZeldaManager._update_combo`. -/
def zUpdateCombo (comboFlag : Bool) (st : ZComboState) (success : Bool) :
    ZComboState × Option String :=
  if success then
    let st1 : ZComboState := { st with current_streak := st.current_streak + 1 }
    let st2 : ZComboState :=
      if st1.current_streak > st1.highest_streak then
        { st1 with highest_streak := st1.current_streak }
      else st1
    zComboLoop comboFlag
      [.MASTER, .PLATINUM, .GOLD, .SILVER, .BRONZE] st2
  else
    if 3 ≤ st.current_streak then
      ({ st with current_streak := 0, last_level_reached := "NONE" },
        some "damage.wav")
    else
      ({ st with current_streak := 0 }, none)

/-- The loop of `ZeldaManager._check_achievements`: already-unlocked ids are
skipped; otherwise the progress entry is overwritten with the raw counter,
and on reaching the requirement the achievement is unlocked, appended to the
session's list, at most one cue is emitted (when `sounds.achievements` is
on) and the loop `break`s. Returns
`(unlocked, progress, session_achievements, sounds)`. -/
def zAchGo (now : Nat) (achFlag : Bool) (total streak ef : Nat) :
    List (String × Nat) → List (String × Nat) → List (String × Nat) →
    List String →
    List (String × Nat) × List (String × Nat) × List String × List String
  | [], unlocked, progress, sessAch => (unlocked, progress, sessAch, [])
  | (aid, req) :: rest, unlocked, progress, sessAch =>
    if (alookup aid unlocked).isSome then
      zAchGo now achFlag total streak ef rest unlocked progress sessAch
    else
      let prog := zCounterFor aid total streak ef
      let progress' := setAssoc aid prog progress
      if req ≤ prog then
        (unlocked ++ [(aid, now)], progress', sessAch ++ [aid],
          if achFlag then ["achievement.wav"] else [])
      else zAchGo now achFlag total streak ef rest unlocked progress' sessAch

/-- `ZeldaManager._check_achievements`. -/
def zCheckAchievements (now : Nat) (m : ZeldaManager) :
    ZeldaManager × List String :=
  match m.current_session with
  | none => (m, [])
  | some sess =>
    let total := m.all_time.total_commands + sess.total_commands
    let r := zAchGo now m.config.sounds_achievements total
      m.combo_state.current_streak m.error_free_count zACHIEVEMENTS
      m.ach_unlocked m.ach_progress sess.achievements_unlocked
    ({ m with
        ach_unlocked := r.1,
        ach_progress := r.2.1,
        current_session := some { sess with achievements_unlocked := r.2.2.1 } },
      r.2.2.2)

/-- The per-event session-record update of `ZeldaManager.record_command`:
increment `total_commands`, then `successful_commands` or `failed_commands`,
then bump the tool-usage histogram (`zelda_core` does not touch the
session's streak fields; the streak lives in `combo_state`). -/
def zSessStep (sess : SessionStats) (tool : String) (success : Bool) :
    SessionStats :=
  let sess1 : SessionStats :=
    { sess with total_commands := sess.total_commands + 1 }
  let sess2 : SessionStats :=
    if success then
      { sess1 with successful_commands := sess1.successful_commands + 1 }
    else
      { sess1 with failed_commands := sess1.failed_commands + 1 }
  { sess2 with
    tools_used := setAssoc tool
      ((alookup tool sess2.tools_used).getD 0 + 1) sess2.tools_used }

/-- `ZeldaManager.record_command`: returns `[]` without touching any state
when no session is open; otherwise updates the session statistics and
`error_free_count`, updates the combo state, checks achievements, and
returns the collected cue list (combo cue first). -/
def zRecordCommand (m : ZeldaManager) (now : Nat) (tool : String)
    (success : Bool) : ZeldaManager × List String :=
  match m.current_session with
  | none => (m, [])
  | some sess =>
    let cr := zUpdateCombo m.config.sounds_combo m.combo_state success
    let m1 : ZeldaManager := { m with
      current_session := some (zSessStep sess tool success),
      combo_state := cr.1,
      error_free_count := if success then m.error_free_count + 1 else 0 }
    let ar := zCheckAchievements now m1
    (ar.1, (match cr.2 with | some s => [s] | none => []) ++ ar.2)

/-- `ZeldaManager.start_session`. -/
def zStartSession (m : ZeldaManager) (id : String) (now : Nat) : ZeldaManager :=
  { m with
      current_session := some { session_id := id, start_time := now },
      all_time := { m.all_time with
        total_sessions := m.all_time.total_sessions + 1 },
      combo_state := {},
      error_free_count := 0 }

/-- A sequence of `record_command` calls on a `ZeldaManager`, each event
being `(now, tool_name, success)`; cue lists are discarded. -/
def runZ (m : ZeldaManager) : List (Nat × String × Bool) → ZeldaManager
  | [] => m
  | (now, tool, success) :: rest =>
    runZ (zRecordCommand m now tool success).1 rest

/-- A fresh `ZeldaManager` as built by `__init__` with no persisted files:
default config, empty statistics, no session, reset combo state, no
achievements. -/
def freshZelda : ZeldaManager := {}

/-- Overwrite the `sounds.combo` config flag. -/
def setComboFlag (m : ZeldaManager) (b : Bool) : ZeldaManager :=
  { m with config := { m.config with sounds_combo := b } }

theorem zComboLoop_flag_concrete (st : ZComboState) :
    (zComboLoop false
      [.MASTER, .PLATINUM, .GOLD, .SILVER, .BRONZE] st).1 =
    (zComboLoop true
      [.MASTER, .PLATINUM, .GOLD, .SILVER, .BRONZE] st).1 := by
  by_cases h50 : st.current_streak = 50
  · simp [zComboLoop, ComboLevel.threshold, h50]
  · by_cases h20 : st.current_streak = 20
    · simp [zComboLoop, ComboLevel.threshold, h50, h20]
    · by_cases h10 : st.current_streak = 10
      · simp [zComboLoop, ComboLevel.threshold, h50, h20, h10]
      · by_cases h5 : st.current_streak = 5
        · simp [zComboLoop, ComboLevel.threshold, h50, h20, h10, h5]
        · by_cases h3 : st.current_streak = 3
          · simp [zComboLoop, ComboLevel.threshold, h50, h20, h10, h5, h3]
          · simp [zComboLoop, ComboLevel.threshold, h50, h20, h10, h5, h3]

theorem zUpdateCombo_state_flag (flag : Bool) (st : ZComboState)
    (success : Bool) :
    (zUpdateCombo flag st success).1 = (zUpdateCombo true st success).1 := by
  cases success with
  | false => rfl
  | true =>
    cases flag with
    | true => rfl
    | false =>
      simp only [zUpdateCombo]
      exact zComboLoop_flag_concrete _

theorem zCheckAchievements_flag (now : Nat) (m : ZeldaManager) (b : Bool) :
    (zCheckAchievements now (setComboFlag m b)).1 =
      setComboFlag (zCheckAchievements now m).1 b
    ∧ (zCheckAchievements now (setComboFlag m b)).2 =
      (zCheckAchievements now m).2 := by
  cases hs : m.current_session with
  | none => constructor <;> simp [zCheckAchievements, setComboFlag, hs]
  | some sess => constructor <;> simp [zCheckAchievements, setComboFlag, hs]

theorem zRecordCommand_state_flag (m : ZeldaManager) (now : Nat)
    (tool : String) (success b : Bool) :
    (zRecordCommand (setComboFlag m b) now tool success).1 =
      setComboFlag (zRecordCommand m now tool success).1 b := by
  cases hs : m.current_session with
  | none =>
    simp only [zRecordCommand, setComboFlag, hs]
  | some sess =>
    simp only [zRecordCommand, setComboFlag, hs]
    rw [zUpdateCombo_state_flag b m.combo_state success,
      ← zUpdateCombo_state_flag m.config.sounds_combo m.combo_state success]
    exact (zCheckAchievements_flag now
      { m with
          current_session := some (zSessStep sess tool success),
          combo_state := (zUpdateCombo m.config.sounds_combo m.combo_state success).1,
          error_free_count := if success then m.error_free_count + 1 else 0 }
      b).1

theorem runZ_setComboFlag (evs : List (Nat × String × Bool))
    (m : ZeldaManager) (b : Bool) :
    runZ (setComboFlag m b) evs = setComboFlag (runZ m evs) b := by
  induction evs generalizing m with
  | nil => rfl
  | cons e rest ih =>
    obtain ⟨now, tool, success⟩ := e
    show runZ (zRecordCommand (setComboFlag m b) now tool success).1 rest =
      setComboFlag (runZ (zRecordCommand m now tool success).1 rest) b
    rw [zRecordCommand_state_flag]
    exact ih _

theorem zAchGo_unlocked_len (now : Nat) (achFlag : Bool)
    (total streak ef : Nat) :
    ∀ (entries : List (String × Nat)) (unlocked progress : List (String × Nat))
      (sessAch : List String),
    ((zAchGo now achFlag total streak ef entries unlocked progress
        sessAch).1).length ≤ unlocked.length + 1 := by
  intro entries
  induction entries with
  | nil =>
    intro unlocked progress sessAch
    exact Nat.le_succ _
  | cons e rest ih =>
    obtain ⟨aid, req⟩ := e
    intro unlocked progress sessAch
    by_cases hu : (alookup aid unlocked).isSome = true
    · simp only [zAchGo, if_pos hu]
      exact ih _ _ _
    · simp only [zAchGo, if_neg hu]
      by_cases hr : req ≤ zCounterFor aid total streak ef
      · rw [if_pos hr]
        simp
      · rw [if_neg hr]
        exact ih _ _ _

/-- **C10** (confirmed). The `sounds.combo` config flag affects only cue
emission, never state: two runs of any event sequence that differ only in
the flag produce identical combo state, session record, achievement state,
`error_free_count` and all-time statistics; and on every single call the
combo state transition itself is identical (when the flag is off the tier
transition still occurs, only the returned tier cue is suppressed). -/
theorem sounds_combo_noninterference (m : ZeldaManager)
    (evs : List (Nat × String × Bool)) :
    (runZ (setComboFlag m true) evs).combo_state =
      (runZ (setComboFlag m false) evs).combo_state
    ∧ (runZ (setComboFlag m true) evs).current_session =
      (runZ (setComboFlag m false) evs).current_session
    ∧ (runZ (setComboFlag m true) evs).ach_unlocked =
      (runZ (setComboFlag m false) evs).ach_unlocked
    ∧ (runZ (setComboFlag m true) evs).ach_progress =
      (runZ (setComboFlag m false) evs).ach_progress
    ∧ (runZ (setComboFlag m true) evs).error_free_count =
      (runZ (setComboFlag m false) evs).error_free_count
    ∧ (runZ (setComboFlag m true) evs).all_time =
      (runZ (setComboFlag m false) evs).all_time
    ∧ ∀ (st : ZComboState) (success : Bool),
        (zUpdateCombo false st success).1 = (zUpdateCombo true st success).1 := by
  rw [runZ_setComboFlag, runZ_setComboFlag]
  exact ⟨rfl, rfl, rfl, rfl, rfl, rfl,
    fun st success => zUpdateCombo_state_flag false st success⟩

/-- **C3** (amended form). When no session is open, `record_command` never
raises and returns a valid empty cue list — but it does *not* auto-open an
implicit session and does *not* record the event: the call is a complete
no-op on the manager state. -/
theorem record_command_no_session_noop (m : ZeldaManager) (now : Nat)
    (tool : String) (success : Bool) (h : m.current_session = none) :
    zRecordCommand m now tool success = (m, []) := by
  simp only [zRecordCommand, h]

/-- **C3** witness: the no-op theorem applied to a fresh manager. -/
theorem record_command_no_session_noop_witness :
    freshZelda.current_session = none ∧
    zRecordCommand freshZelda 0 "Bash" true = (freshZelda, []) :=
  ⟨rfl, record_command_no_session_noop freshZelda 0 "Bash" true rfl⟩

/-- **C3** counterexample to the claim as stated: with no open session, a
`record_command` call leaves the manager completely unchanged — no implicit
session is auto-opened (`current_session` remains `none`) and the event is
not recorded anywhere — refuting "the engine auto-opens an implicit session
[and] still records the event" (the "never raises, returns a valid (possibly
empty) cue list" part does hold: the result is `[]`). -/
theorem record_command_no_session_counterexample :
    (zRecordCommand freshZelda 0 "Bash" true).1 = freshZelda
    ∧ (zRecordCommand freshZelda 0 "Bash" true).1.current_session = none
    ∧ (zRecordCommand freshZelda 0 "Bash" true).2 = ([] : List String) :=
  ⟨rfl, rfl, rfl⟩

/-- **C1** (amended form). Two facts, one per evaluator. (a) In
`AchievementManager.update_progress`, every achievement of the
(duplicate-free) update dict that is present in the progress map, not yet
unlocked, and whose updated progress `max(old, new)` reaches its requirement
appears in the returned list — *all* simultaneous crossings are returned.
(b) In `ZeldaManager._check_achievements` (the loop `break`s on the first
unlock), at most one achievement is unlocked per call, however many crossed
their thresholds. -/
theorem achievement_evaluators_crossings :
    (∀ (now : Nat) (p : List (String × AchProgress))
        (updates : List (String × Nat)) (aid : String) (v : Nat)
        (e : AchProgress),
      (updates.map Prod.fst).Nodup → (aid, v) ∈ updates →
      alookup aid p = some e → e.unlocked = false →
      e.requirement ≤ max e.current_progress v →
      aid ∈ (updateProgress now p updates).2)
    ∧ (∀ (now : Nat) (achFlag : Bool) (total streak ef : Nat)
        (entries unlocked progress : List (String × Nat))
        (sessAch : List String),
      ((zAchGo now achFlag total streak ef entries unlocked progress
          sessAch).1).length ≤ unlocked.length + 1) := by
  constructor
  · intro now p updates aid v e hnd hmem hlk hU hR
    unfold updateProgress
    apply collGo_acc_mono
    exact updLoop_complete now updates aid v e p [] hnd hmem hlk hU hR
  · intro now achFlag total streak ef entries unlocked progress sessAch
    exact zAchGo_unlocked_len now achFlag total streak ef entries
      unlocked progress sessAch

/-- **C1** witness: part (a) applied to a concrete one-entry progress map
whose single update crosses the requirement, and part (b) applied to the
full catalog from an empty unlocked map. -/
theorem achievement_evaluators_crossings_witness :
    "first_step" ∈ (updateProgress 7 [("first_step", ⟨0, 1, false, none⟩)]
        [("first_step", 1)]).2
    ∧ ((zAchGo 0 true 1 1 1 zACHIEVEMENTS [] [] []).1).length ≤ 0 + 1 :=
  ⟨achievement_evaluators_crossings.1 7 [("first_step", ⟨0, 1, false, none⟩)]
      [("first_step", 1)] "first_step" 1 ⟨0, 1, false, none⟩
      (by decide) (by decide) (by decide) (by decide) (by decide),
    achievement_evaluators_crossings.2 0 true 1 1 1 zACHIEVEMENTS [] [] []⟩

/-- **C1** counterexample to the claim as stated, on
`ZeldaManager._check_achievements`: starting a fresh session and recording
10 consecutive successes, the 10th call simultaneously pushes three
not-yet-unlocked achievements to their requirements — `apprentice`
(total commands 10 ≥ 10), `combo_gold` (streak 10 ≥ 10) and `flawless_ten`
(error-free run 10 ≥ 10) — yet only `apprentice` is unlocked;
`combo_gold` and `flawless_ten` are neither marked unlocked nor returned
(the call's cue list is just the gold-tier combo cue plus the single
achievement cue). -/
theorem zelda_single_unlock_counterexample :
    ((runZ (zStartSession freshZelda "s1" 0)
        (List.replicate 9 ((0 : Nat), "Bash", true))).combo_state.current_streak = 9
    ∧ alookup "combo_gold"
        (runZ (zStartSession freshZelda "s1" 0)
          (List.replicate 9 ((0 : Nat), "Bash", true))).ach_unlocked = none
    ∧ alookup "flawless_ten"
        (runZ (zStartSession freshZelda "s1" 0)
          (List.replicate 9 ((0 : Nat), "Bash", true))).ach_unlocked = none)
    ∧ ((runZ (zStartSession freshZelda "s1" 0)
        (List.replicate 10 ((0 : Nat), "Bash", true))).combo_state.current_streak = 10
    ∧ (runZ (zStartSession freshZelda "s1" 0)
        (List.replicate 10 ((0 : Nat), "Bash", true))).error_free_count = 10
    ∧ alookup "combo_gold" zACHIEVEMENTS = some 10
    ∧ alookup "flawless_ten" zACHIEVEMENTS = some 10
    ∧ alookup "apprentice"
        (runZ (zStartSession freshZelda "s1" 0)
          (List.replicate 10 ((0 : Nat), "Bash", true))).ach_unlocked = some 0
    ∧ alookup "combo_gold"
        (runZ (zStartSession freshZelda "s1" 0)
          (List.replicate 10 ((0 : Nat), "Bash", true))).ach_unlocked = none
    ∧ alookup "flawless_ten"
        (runZ (zStartSession freshZelda "s1" 0)
          (List.replicate 10 ((0 : Nat), "Bash", true))).ach_unlocked = none)
    ∧ (zRecordCommand (runZ (zStartSession freshZelda "s1" 0)
        (List.replicate 9 ((0 : Nat), "Bash", true))) 0 "Bash" true).2 =
      ["achievement.wav", "achievement.wav"] := by
  refine ⟨⟨?_, ?_, ?_⟩, ⟨?_, ?_, ?_, ?_, ?_, ?_, ?_⟩, ?_⟩ <;> decide

/-- **C2** counterexample to the claim as stated, on
`ZeldaManager._check_achievements`: after two successes the stored progress
for `combo_bronze` is 2; one failure later (streak reset to 0) the same
entry has been overwritten with 0 — the stored progress *decreased*, because
`_check_achievements` assigns the raw counter instead of
`max(progress[id], counter)`. -/
theorem zelda_progress_regression_counterexample :
    alookup "combo_bronze"
      (runZ (zStartSession freshZelda "s1" 0)
        [(0, "Bash", true), (0, "Bash", true)]).ach_progress = some 2
    ∧ alookup "combo_bronze"
      (runZ (zStartSession freshZelda "s1" 0)
        [(0, "Bash", true), (0, "Bash", true), (0, "Bash", false)]).ach_progress
      = some 0 := by
  constructor <;> decide
